import Mathlib

/-!
Verification development for the lambda-debugger runtime emulator.

The repository contains a local emulator of the AWS Lambda Runtime API and a
remote proxy lambda that bridges real invocations to a developer machine over
a pair of SQS queues.  This file gives a shallow embedding of the parts of the
code the checked claims are about:

* the oversize-payload codec (`compress_output` in
  src/runtime-emulator/src/sqs.rs, `decode_maybe_binary` in
  src/proxy-lambda/src/main.rs), with Base58 implemented concretely (the code
  uses the bs58 crate with the standard Bitcoin alphabet) and gzip kept
  abstract as a parameter (the code uses the external flate2 crate);
* the RerunGuard state machine (BLOCK_NEXT_INVOCATION in
  src/cargo-lambda-emulator/src/handlers/mod.rs, the error handler in
  src/lambda-debugger/src/handlers/lambda_error.rs, block_if_rerun in
  src/lambda-debugger/src/handlers/next_invocation.rs);
* the emulator's queue output path (`send_output` in
  src/runtime-emulator/src/sqs.rs) as a list of SQS actions;
* the proxy lambda's response-queue phase, receive-loop message processing and
  environment-variable listing (src/proxy-lambda/src/main.rs);
* the emulator's queue configuration resolution (`get_queues` in
  src/lambda-debugger/src/config.rs);
* the request-payload deserialisation with serde container defaults
  (`Ctx` and `get_input` in src/runtime-emulator/src/sqs.rs).

Rust strings and byte vectors are embedded as `List Nat` of byte values;
environment data uses Lean `String`.
-/

namespace LambdaDebugger

/-! ### Byte-level helpers -/

/-- Whitespace bytes recognised by `str::trim_start`, restricted to the ASCII
range (tab, LF, vertical tab, form feed, CR, space).  On ASCII bytes this
coincides with Rust's Unicode `char::is_whitespace`; multi-byte whitespace
code points never begin with an ASCII byte, so at byte granularity this is
faithful for every property stated below. -/
def isWsByte (b : Nat) : Bool :=
  b == 32 || b == 9 || b == 10 || b == 11 || b == 12 || b == 13

/-- Embedding of `body.trim_start()` at byte level: drop leading whitespace. -/
def trimStart (s : List Nat) : List Nat :=
  s.dropWhile isWsByte

/-- One step of the standard UTF-8 acceptance automaton (RFC 3629, the
check Rust's `String::from_utf8` performs): state 0 expects a start byte,
state 1 one continuation byte, states 2-4 a range-restricted continuation
then one more (three-byte forms E0, E1-EC and EE-EF, ED), states 5-7 a
range-restricted continuation then two more (four-byte forms F0, F1-F3, F4);
`none` rejects.  Overlong forms, surrogates, code points above U+10FFFF and
bytes outside 0..255 are all rejected. -/
def utf8Step (s b : Nat) : Option Nat :=
  if s = 0 then
    if b < 128 then some 0
    else if 194 ≤ b ∧ b ≤ 223 then some 1
    else if b = 224 then some 2
    else if 225 ≤ b ∧ b ≤ 236 then some 3
    else if b = 237 then some 4
    else if 238 ≤ b ∧ b ≤ 239 then some 3
    else if b = 240 then some 5
    else if 241 ≤ b ∧ b ≤ 243 then some 6
    else if b = 244 then some 7
    else none
  else if s = 1 then (if 128 ≤ b ∧ b ≤ 191 then some 0 else none)
  else if s = 2 then (if 160 ≤ b ∧ b ≤ 191 then some 1 else none)
  else if s = 3 then (if 128 ≤ b ∧ b ≤ 191 then some 1 else none)
  else if s = 4 then (if 128 ≤ b ∧ b ≤ 159 then some 1 else none)
  else if s = 5 then (if 144 ≤ b ∧ b ≤ 191 then some 3 else none)
  else if s = 6 then (if 128 ≤ b ∧ b ≤ 191 then some 3 else none)
  else if s = 7 then (if 128 ≤ b ∧ b ≤ 143 then some 3 else none)
  else none

/-- Run of the UTF-8 automaton from a state; accepting only back at state 0. -/
def utf8ValidAux : Nat → List Nat → Bool
  | s, [] => s == 0
  | s, b :: rest =>
    match utf8Step s b with
    | none => false
    | some s2 => utf8ValidAux s2 rest

/-- Validity checker for UTF-8 byte lists. -/
def utf8Valid (l : List Nat) : Bool := utf8ValidAux 0 l

/-! ### Base58 (bs58 crate, Bitcoin alphabet) -/

/-- ASCII codes of the bs58 crate's default alphabet
1-9, A-Z without I and O, a-z without l. -/
def B58_ALPHABET : List Nat :=
  [49, 50, 51, 52, 53, 54, 55, 56, 57,
   65, 66, 67, 68, 69, 70, 71, 72, 74, 75, 76, 77, 78,
   80, 81, 82, 83, 84, 85, 86, 87, 88, 89, 90,
   97, 98, 99, 100, 101, 102, 103, 104, 105, 106, 107,
   109, 110, 111, 112, 113, 114, 115, 116, 117, 118, 119, 120, 121, 122]

/-- The alphabet character of a digit value below 58. -/
def b58DigitChar (d : Nat) : Nat := B58_ALPHABET.getD d 0

/-- The digit value of an alphabet character; `none` for a byte outside the
alphabet (bs58's invalid-character error). -/
def b58CharVal (c : Nat) : Option Nat :=
  let i := B58_ALPHABET.indexOf c
  if i < 58 then some i else none

/-- Big-endian byte list read as a natural number. -/
def beNat (bs : List Nat) : Nat :=
  bs.foldl (fun acc b => acc * 256 + b) 0

/-- Count of leading zero bytes, which Base58 preserves as leading ones. -/
def b58LeadingZeros (bs : List Nat) : Nat :=
  (bs.takeWhile (fun b => b == 0)).length

/-- Base58 encoding of a byte list: one alphabet-first character per leading
zero byte, then the big-endian base-58 digits of the remaining value. -/
def b58encode (bs : List Nat) : List Nat :=
  List.replicate (b58LeadingZeros bs) 49 ++
    ((Nat.digits 58 (beNat bs)).reverse.map b58DigitChar)

/-- Digit values of every character, or `none` if one is not in the alphabet. -/
def b58Vals : List Nat → Option (List Nat)
  | [] => some []
  | c :: cs =>
    match b58CharVal c, b58Vals cs with
    | some v, some vs => some (v :: vs)
    | _, _ => none

/-- Big-endian base-58 digit list read as a natural number. -/
def b58Nat (vs : List Nat) : Nat :=
  vs.foldl (fun acc v => acc * 58 + v) 0

/-- Count of leading ones, which decode restores as leading zero bytes. -/
def b58LeadingOnes (cs : List Nat) : Nat :=
  (cs.takeWhile (fun c => c == 49)).length

/-- Base58 decoding: every character must be in the alphabet; leading ones
become zero bytes and the rest is the big-endian base-256 expansion. -/
def b58decode (cs : List Nat) : Option (List Nat) :=
  match b58Vals cs with
  | none => none
  | some vs =>
    some (List.replicate (b58LeadingOnes cs) 0 ++ (Nat.digits 256 (b58Nat vs)).reverse)

/-! ### Oversize-payload codec -/

/-- Embedding of `compress_output` (src/runtime-emulator/src/sqs.rs):
bodies under the SQS limit of 262144 bytes pass through unchanged, larger
bodies are gzipped (abstract `gzip` parameter for the flate2 encoder) and
Base58-encoded. -/
def compressOutput (gzip : List Nat → List Nat) (response : List Nat) : List Nat :=
  if response.length < 262144 then response
  else b58encode (gzip response)

/-- Embedding of `decode_maybe_binary` (src/proxy-lambda/src/main.rs):
an empty body or one whose first non-whitespace byte is a left brace is
returned as-is; anything else must Base58-decode, gunzip (abstract `gunzip`
parameter for the flate2 decoder, `none` modelling a decoder error) and
validate as UTF-8. -/
def decodeMaybeBinary (gunzip : List Nat → Option (List Nat)) (body : List Nat) :
    Except String (List Nat) :=
  if body.isEmpty || (trimStart body).head? == some 123 then Except.ok body
  else
    match b58decode body with
    | none => Except.error "Failed to decode from maybe base58"
    | some decoded =>
      match gunzip decoded with
      | none => Except.error "Failed to decompress the payload"
      | some bytes =>
        if utf8Valid bytes then Except.ok bytes
        else Except.error "Failed to convert decompressed payload to UTF8"

/-! ### RerunGuard state machine -/

/-- Terminal actions of the emulator that the RerunGuard claim ranges over. -/
inductive TermAction
  | processStart
  | errorPost
  | responseLocal
  | responseRemote
deriving DecidableEq, Repr

/-- Modelled from the spec: the lambda-debugger crate's
handlers/lambda_response.rs is not among the repository's source files, so the
`responseLocal` transition follows the spec sentence "In Local mode the body is
logged, the RerunGuard is set (to stop the file from replaying), and 200 is
returned", and `responseRemote` follows the spec table row "/response handler,
Remote mode: unchanged" (consistent with
src/runtime-emulator/src/handlers/lambda_response.rs, which never touches the
guard).  The `processStart` transition is the real initialiser
`RwLock::new(false)` in src/cargo-lambda-emulator/src/handlers/mod.rs and
`errorPost` is the real write in
src/lambda-debugger/src/handlers/lambda_error.rs. -/
def guardStep (g : Bool) : TermAction → Bool
  | TermAction.processStart => false
  | TermAction.errorPost => true
  | TermAction.responseLocal => true
  | TermAction.responseRemote => g

/-- Guard value after a sequence of terminal actions, starting from the
cleared state of a fresh process. -/
def guardAfter (acts : List TermAction) : Bool :=
  acts.foldl guardStep false

/-- Embedding of the read-then-clear observation in `block_if_rerun`
(src/lambda-debugger/src/handlers/next_invocation.rs): returns the observed
value and the guard state it leaves behind. -/
def blockIfRerunObserve (g : Bool) : Bool × Bool :=
  (g, if g then false else g)

/-- Actions that write the guard; a Remote-mode success response leaves it
unchanged. -/
def isGuardWriter : TermAction → Bool
  | TermAction.responseRemote => false
  | _ => true

/-- The last guard-writing terminal action of a sequence, if any. -/
def lastGuardWriter (acts : List TermAction) : Option TermAction :=
  (acts.filter isGuardWriter).getLast?

/-- Claim C1 as stated: after any sequence of terminal actions, the guard is
observed set iff the most recent terminal action was an error response or a
Local-mode success response. -/
abbrev rerunGuardClaim (acts : List TermAction) : Prop :=
  (blockIfRerunObserve (guardAfter acts)).1 = true ↔
    (acts.getLast? = some TermAction.errorPost ∨
      acts.getLast? = some TermAction.responseLocal)

/-! ### next_invocation handler trace -/

/-- Payloads read from a local file
(src/lambda-debugger/src/config.rs, `LocalConfig`). -/
structure LocalConfig where
  payload : String
  file_name : String
deriving DecidableEq, Repr

/-- Request/response queues for remote payloads
(src/lambda-debugger/src/config.rs, `RemoteConfig`). -/
structure RemoteConfig where
  request_queue_url : String
  response_queue_url : Option String
deriving DecidableEq, Repr

/-- Source of invocation payloads
(src/lambda-debugger/src/config.rs, `PayloadSources`). -/
inductive PayloadSources
  | localFile (cfg : LocalConfig)
  | remoteQueues (cfg : RemoteConfig)
deriving DecidableEq, Repr

/-- Observable steps of one `next_invocation` handler call
(src/lambda-debugger/src/handlers/next_invocation.rs). -/
inductive EmuStep
  | readGuard (b : Bool)
  | clearGuard
  | warnRestart
  | sleepSecs (n : Nat)
  | sourceLocalFile (payload : String)
  | receiveSqs (payload : String)
  | deliverPayload (payload : String)
deriving DecidableEq, Repr

/-- Trace of `block_if_rerun`: read the flag; if set, clear it; if set, warn
and sleep for a month (31563000 seconds). -/
def blockIfRerunTrace (block : Bool) : List EmuStep :=
  [EmuStep.readGuard block] ++
    (if block then [EmuStep.clearGuard] else []) ++
    (if block then [EmuStep.warnRestart, EmuStep.sleepSecs 31563000] else [])

/-- Trace of the payload-sourcing part of the handler: the local file payload
is returned directly, otherwise `sqs::get_input` blocks for an SQS message
(`sqsPayload` is the event the arriving message carries). -/
def sourcingTrace (src : PayloadSources) (sqsPayload : String) : List EmuStep :=
  match src with
  | PayloadSources.localFile cfg =>
    [EmuStep.sourceLocalFile cfg.payload, EmuStep.deliverPayload cfg.payload]
  | PayloadSources.remoteQueues _ =>
    [EmuStep.receiveSqs sqsPayload, EmuStep.deliverPayload sqsPayload]

/-- Trace of one `next_invocation` handler call: `block_if_rerun` runs to
completion before any payload sourcing. -/
def nextInvocationTrace (block : Bool) (src : PayloadSources) (sqsPayload : String) :
    List EmuStep :=
  blockIfRerunTrace block ++ sourcingTrace src sqsPayload

/-- Steps that source or deliver an invocation payload. -/
def isPayloadStep : EmuStep → Bool
  | EmuStep.sourceLocalFile _ => true
  | EmuStep.receiveSqs _ => true
  | EmuStep.deliverPayload _ => true
  | _ => false

/-! ### Emulator queue output path -/

/-- SQS calls the embedded code issues. -/
inductive SqsAction
  | sendMessage (queueUrl : String) (body : List Nat)
  | deleteMessage (queueUrl : String) (receiptHandle : String)
deriving DecidableEq, Repr

/-- Queue pair of the emulator's `send_output`
(src/runtime-emulator/src/sqs.rs, Remote mode). -/
structure EmuQueues where
  requestQueueUrl : String
  responseQueueUrl : String
deriving DecidableEq, Repr

/-- Embedding of `send_output` (src/runtime-emulator/src/sqs.rs) as the list
of SQS actions it issues: compress the response, send it to the response
queue when the encoded form is under 262144 bytes (otherwise only log), then
always delete the request message with the supplied receipt handle.
Transport failures panic in the source and are outside this happy-path
model. -/
def sendOutputActions (q : EmuQueues) (gzip : List Nat → List Nat)
    (response : List Nat) (receiptHandle : String) : List SqsAction :=
  let compressed := compressOutput gzip response
  (if compressed.length < 262144
    then [SqsAction.sendMessage q.responseQueueUrl compressed]
    else []) ++
    [SqsAction.deleteMessage q.requestQueueUrl receiptHandle]

/-! ### Proxy lambda: response-queue phase and receive loop -/

/-- Splitting a character list on a separator, as Rust's `str::split` for a
single-character pattern: n separators yield n+1 pieces, the empty input one
empty piece. -/
def splitChar (sep : Char) : List Char → List (List Char)
  | [] => [[]]
  | c :: cs =>
    let rest := splitChar sep cs
    if c = sep then [] :: rest
    else
      match rest with
      | r :: rs => (c :: r) :: rs
      | [] => [[c]]

/-- Embedding of `invoked_function_arn.split(':').collect::<Vec<&str>>()`
(src/proxy-lambda/src/main.rs). -/
def rustSplitColon (s : String) : List String :=
  (splitChar ':' s.data).map (fun l => String.mk l)

/-- Default response queue URL derived from the invoked-function ARN parts
(src/proxy-lambda/src/main.rs, lines 113-126). -/
def defaultRespQueueUrl (arnParts : List String) : String :=
  "https://sqs." ++ arnParts.getD 3 "" ++ ".amazonaws.com/" ++
    arnParts.getD 4 "" ++ "/proxy_lambda_resp"

/-- Outcome of the proxy's response-queue phase: an invocation error, an
immediate JSON null return without polling (fire-and-forget), or entry into
the 20-second receive loop on the given queue. -/
inductive RespPhaseOutcome
  | invocationError (msg : String)
  | fireAndForgetNull
  | waitForResponse (url : String)
deriving DecidableEq, Repr

/-- Embedding of the response-queue phase of `my_handler`
(src/proxy-lambda/src/main.rs, lines 100-140), which runs immediately after
the request message is sent: with the env var set, a purge failure is
propagated with the error operator; without it, the URL is derived from the
ARN (which must split on colons into exactly 7 parts) and a purge failure
makes the handler return JSON null at once.  `purge` abstracts
`purge_response_queue` against the external SQS service. -/
def respQueuePhase (envRespUrl : Option String) (invokedFunctionArn : String)
    (purge : String → Except String Unit) : RespPhaseOutcome :=
  match envRespUrl with
  | some url =>
    match purge url with
    | Except.error e => RespPhaseOutcome.invocationError e
    | Except.ok _ => RespPhaseOutcome.waitForResponse url
  | none =>
    let arn := rustSplitColon invokedFunctionArn
    if arn.length ≠ 7 then RespPhaseOutcome.invocationError "Context error"
    else
      match purge (defaultRespQueueUrl arn) with
      | Except.error _ => RespPhaseOutcome.fireAndForgetNull
      | Except.ok _ => RespPhaseOutcome.waitForResponse (defaultRespQueueUrl arn)

/-- Embedding of the body of the proxy's receive loop once a message has
arrived (src/proxy-lambda/src/main.rs, lines 176-223): decode the body; on a
decode error return it without touching the queue, otherwise delete the
message from the response queue.  The result is the decoded body paired with
the SQS actions issued. -/
def processResponseMessage (gunzip : List Nat → Option (List Nat))
    (responseQueueUrl : String) (body : List Nat) (receiptHandle : String) :
    Except String (List Nat) × List SqsAction :=
  match decodeMaybeBinary gunzip body with
  | Except.error e => (Except.error e, [])
  | Except.ok decoded =>
    (Except.ok decoded, [SqsAction.deleteMessage responseQueueUrl receiptHandle])

/-! ### Proxy lambda: environment listing -/

/-- The credential variables `print_env_vars` refuses to log
(src/proxy-lambda/src/main.rs, lines 321-340). -/
def isSensitiveKey (key : String) : Bool :=
  key == "AWS_ACCESS_KEY_ID" || key == "AWS_SECRET_ACCESS_KEY" ||
    key == "AWS_SESSION_TOKEN"

/-- Embedding of `print_env_vars`: the marker entry, then one KEY=VALUE entry
per non-sensitive variable, sorted; the joined log line is the space-separated
concatenation of this list. -/
def printEnvVarsList (env : List (String × String)) : List String :=
  let env_vars := " export" ::
    env.filterMap (fun kv =>
      if isSensitiveKey kv.1 then none else some (kv.1 ++ "=" ++ kv.2))
  env_vars.mergeSort (fun a b => decide (a ≤ b))

/-! ### Emulator queue configuration -/

/-- Embedding of `get_queues` (src/lambda-debugger/src/config.rs, lines
111-144; src/runtime-emulator/src/config.rs reads the same variables):
the request queue env var is PROXY_LAMBDA_REQ_QUEUE_URL, the response queue
env var the code reads is LAMBDA_PROXY_RESP_QUEUE_URL; default queue
discovery results are parameters and are consulted only when an env var is
missing. -/
def getQueues (envVar : String → Option String)
    (defaultReqQueue defaultRespQueue : Option String) : Option RemoteConfig :=
  let requestEnv := envVar "PROXY_LAMBDA_REQ_QUEUE_URL"
  let responseEnv := envVar "LAMBDA_PROXY_RESP_QUEUE_URL"
  let defaults :=
    if requestEnv.isNone || responseEnv.isNone
      then (defaultReqQueue, defaultRespQueue) else (none, none)
  let responseUrl :=
    match responseEnv with
    | some v => some v
    | none => defaults.2
  match requestEnv with
  | some v => some ⟨v, responseUrl⟩
  | none =>
    match defaults.1 with
    | some v => some ⟨v, responseUrl⟩
    | none => none

/-- Environment of the C6 failing input: the user follows the documentation
and sets PROXY_LAMBDA_RESP_QUEUE_URL (and the request var); the variable the
code actually reads, LAMBDA_PROXY_RESP_QUEUE_URL, is unset. -/
def envC6 : String → Option String := fun k =>
  if k == "PROXY_LAMBDA_REQ_QUEUE_URL" then
    some "https://sqs.us-east-1.amazonaws.com/123456789012/custom_req"
  else if k == "PROXY_LAMBDA_RESP_QUEUE_URL" then
    some "https://sqs.us-east-1.amazonaws.com/123456789012/custom_resp"
  else none

/-! ### Request payload deserialisation (serde defaults) -/

/-- JSON values as serde_json's Value, with integer numbers (the only numeric
shape the embedded claims touch). -/
inductive Json
  | null
  | bool (b : Bool)
  | num (n : Int)
  | str (s : String)
  | arr (items : List Json)
  | obj (fields : List (String × Json))

/-- The all-zero X-Ray trace placeholder of `Ctx::default`
(src/runtime-emulator/src/sqs.rs). -/
def zeroXray : String :=
  "Root=0-00000000-000000000000000000000000;Parent=0000000000000000;Sampled=0;Lineage=00000000:0"

/-- Embedding of the emulator's `Ctx` struct (src/runtime-emulator/src/sqs.rs). -/
structure Ctx where
  request_id : String
  deadline : Int
  invoked_function_arn : String
  xray_trace_id : String
deriving DecidableEq, Repr

/-- Embedding of `Ctx::default` (src/runtime-emulator/src/sqs.rs):
`freshUuid` stands for the `Uuid::new_v4()` drawn at default-construction
time. -/
def ctxDefault (freshUuid : String) : Ctx :=
  ⟨freshUuid, 2524608000, "my-lambda", zeroXray⟩

/-- Embedding of `RequestPayload` (src/runtime-emulator/src/sqs.rs). -/
structure RequestPayload where
  event : Json
  ctx : Ctx

/-- Deserialise one string field under the container-level serde default:
a missing key falls back to the default value, a present key must hold a
string. -/
def parseStrField (fields : List (String × Json)) (name dflt : String) :
    Option String :=
  match List.lookup name fields with
  | none => some dflt
  | some (Json.str s) => some s
  | some _ => none

/-- Deserialise one i64 field under the container-level serde default. -/
def parseIntField (fields : List (String × Json)) (name : String) (dflt : Int) :
    Option Int :=
  match List.lookup name fields with
  | none => some dflt
  | some (Json.num n) => some n
  | some _ => none

/-- Deserialisation of `Ctx` with `serde(default)` at container level: each
missing field is taken from `ctxDefault freshUuid`, unknown fields are
ignored, and a present field of the wrong type is an error. -/
def parseCtx (fields : List (String × Json)) (freshUuid : String) : Option Ctx :=
  match parseStrField fields "request_id" (ctxDefault freshUuid).request_id,
      parseIntField fields "deadline" (ctxDefault freshUuid).deadline,
      parseStrField fields "invoked_function_arn" (ctxDefault freshUuid).invoked_function_arn,
      parseStrField fields "xray_trace_id" (ctxDefault freshUuid).xray_trace_id with
  | some a, some b, some c, some x => some ⟨a, b, c, x⟩
  | _, _, _, _ => none

/-- Deserialisation of a request-queue message body as `RequestPayload`
(`serde_json::from_str` in `get_input`, src/runtime-emulator/src/sqs.rs):
the body must be a JSON object with an `event` value and a `ctx` object;
`ctx` fields fall back to defaults as in `parseCtx`. -/
def parseRequestPayload (j : Json) (freshUuid : String) : Option RequestPayload :=
  match j with
  | Json.obj fields =>
    match List.lookup "event" fields, List.lookup "ctx" fields with
    | some ev, some (Json.obj ctxFields) =>
      (parseCtx ctxFields freshUuid).map (fun c => ⟨ev, c⟩)
    | _, _ => none
  | _ => none

/-! ### Concrete inputs used by witnesses and counterexamples -/

/-- Stub compressor standing in for the flate2 gzip encoder in witnesses:
prepends the gzip magic bytes. -/
def gzipStub (l : List Nat) : List Nat := 31 :: 139 :: 8 :: l

/-- Stub decompressor inverting `gzipStub`. -/
def gunzipStub (l : List Nat) : Option (List Nat) :=
  match l with
  | 31 :: 139 :: 8 :: t => some t
  | _ => none

/-- A 262144-byte ASCII payload (the letter a repeated), at the SQS size
threshold. -/
def bigPayload : List Nat := List.replicate 262144 97

/-- The bytes of the JSON string the happy-path scenario sends back:
a double quote, p, o, n, g, a double quote. -/
def pongBody : List Nat := [34, 112, 111, 110, 103, 34]

/-- An ARN with the required seven colon-separated parts. -/
def arnSeven : String :=
  "arn:aws:lambda:us-east-1:123456789012:function:my-lambda"

/-- A purge stub that always fails, standing in for a missing or
access-denied response queue. -/
def purgeDenied : String → Except String Unit :=
  fun _ => Except.error "AccessDenied"

/-! ## Theorems -/

/-! ### RerunGuard (C1) -/

/-- The guard is set after a sequence of terminal actions exactly when the
last guard-writing action of the sequence is an error post or a Local-mode
success response. -/
theorem guardAfter_iff_lastWriter (acts : List TermAction) :
    guardAfter acts = true ↔
      (lastGuardWriter acts = some TermAction.errorPost ∨
        lastGuardWriter acts = some TermAction.responseLocal) := by
  induction acts using List.reverseRecOn with
  | nil => simp [guardAfter, lastGuardWriter]
  | append_singleton as a ih =>
    have hfold : guardAfter (as ++ [a]) = guardStep (guardAfter as) a := by
      simp [guardAfter, List.foldl_append]
    cases a with
    | processStart =>
      rw [hfold]
      simp [guardStep, lastGuardWriter, List.filter_append, isGuardWriter]
    | errorPost =>
      rw [hfold]
      simp [guardStep, lastGuardWriter, List.filter_append, isGuardWriter]
    | responseLocal =>
      rw [hfold]
      simp [guardStep, lastGuardWriter, List.filter_append, isGuardWriter]
    | responseRemote =>
      rw [hfold]
      simpa [guardStep, lastGuardWriter, List.filter_append, isGuardWriter] using ih

/-- C1 (counterexample): after the terminal-action sequence process start,
error post, Remote-mode success, the guard is observed set although the most
recent terminal action is a Remote-mode success, so the claimed equivalence
fails as stated. -/
theorem rerun_guard_claim_false_C1 :
    ¬ rerunGuardClaim
      [TermAction.processStart, TermAction.errorPost, TermAction.responseRemote] := by
  decide

/-- C1 (amended): the RerunGuard is observed set by next_invocation iff the
most recent guard-writing terminal action (process start, error post in any
mode, or success in Local mode; a Remote-mode success leaves the guard
unchanged) is an error post or a Local-mode success; in particular the guard
is set after the Local-mode response handler completes, and the observation
clears the guard. -/
theorem rerun_guard_writers_C1 (acts : List TermAction) :
    ((blockIfRerunObserve (guardAfter acts)).1 = true ↔
        (lastGuardWriter acts = some TermAction.errorPost ∨
          lastGuardWriter acts = some TermAction.responseLocal))
      ∧ guardAfter (acts ++ [TermAction.responseLocal]) = true
      ∧ (blockIfRerunObserve (guardAfter acts)).2 = false := by
  refine ⟨?_, ?_, ?_⟩
  · simpa [blockIfRerunObserve] using guardAfter_iff_lastWriter acts
  · simp [guardAfter, List.foldl_append, guardStep]
  · cases h : guardAfter acts <;> simp [blockIfRerunObserve]

/-! ### Base58 facts -/

theorem b58CharVal_one : b58CharVal 49 = some 0 := by decide

theorem b58CharVal_digitChar : ∀ d < 58, b58CharVal (b58DigitChar d) = some d := by decide

theorem b58DigitChar_ne_one : ∀ d < 58, d ≠ 0 → b58DigitChar d ≠ 49 := by decide

theorem b58DigitChar_mem : ∀ d < 58, b58DigitChar d ∈ B58_ALPHABET := by decide

theorem alphabet_plain : ∀ c ∈ B58_ALPHABET, isWsByte c = false ∧ c ≠ 123 := by decide

theorem foldlMulAdd_replicate_zero (b z : Nat) :
    (List.replicate z 0).foldl (fun acc v => acc * b + v) 0 = 0 := by
  induction z with
  | zero => rfl
  | succ n ih => simpa [List.replicate_succ] using ih

theorem foldlMulAdd_reverse (b : Nat) (l : List Nat) :
    l.reverse.foldl (fun acc v => acc * b + v) 0 = Nat.ofDigits b l := by
  induction l with
  | nil => simp [Nat.ofDigits_nil]
  | cons d t ih =>
    simp [List.reverse_cons, List.foldl_append, ih, Nat.ofDigits_cons]
    ring

theorem foldlMulAdd_replicate_zero_append (b z : Nat) (l : List Nat) :
    (List.replicate z 0 ++ l).foldl (fun acc v => acc * b + v) 0
      = l.foldl (fun acc v => acc * b + v) 0 := by
  simp [List.foldl_append, foldlMulAdd_replicate_zero]

theorem le_foldlMulAdd (b : Nat) (hb1 : 0 < b) :
    ∀ (t : List Nat) (a : Nat), a ≤ t.foldl (fun acc v => acc * b + v) a := by
  intro t
  induction t with
  | nil => intro a; simp
  | cons v ts ih =>
    intro a
    have h1 : a ≤ a * b := Nat.le_mul_of_pos_right a hb1
    have h2 : a * b + v ≤ ts.foldl (fun acc v => acc * b + v) (a * b + v) :=
      ih (a * b + v)
    calc a ≤ a * b + v := by omega
      _ ≤ ts.foldl (fun acc v => acc * b + v) (a * b + v) := h2
      _ = (v :: ts).foldl (fun acc v => acc * b + v) a := rfl

theorem beNat_cons_pos (h : Nat) (t : List Nat) (hh : h ≠ 0) : beNat (h :: t) ≠ 0 := by
  have h1 := le_foldlMulAdd 256 (by norm_num) t h
  have hb : beNat (h :: t) = t.foldl (fun acc v => acc * 256 + v) h := by
    simp [beNat]
  omega

theorem b58Vals_append {xs ys vx vy : List Nat}
    (hx : b58Vals xs = some vx) (hy : b58Vals ys = some vy) :
    b58Vals (xs ++ ys) = some (vx ++ vy) := by
  induction xs generalizing vx with
  | nil =>
    simp [b58Vals] at hx
    subst hx
    simpa using hy
  | cons c cs ih =>
    cases hv : b58CharVal c <;> cases hcs : b58Vals cs <;>
      simp [b58Vals, hv, hcs] at hx
    subst hx
    simp [b58Vals, hv, ih hcs]

theorem b58Vals_replicate_one (z : Nat) :
    b58Vals (List.replicate z 49) = some (List.replicate z 0) := by
  induction z with
  | zero => rfl
  | succ n ih => simp [List.replicate_succ, b58Vals, b58CharVal_one, ih]

theorem b58Vals_map_digitChar (l : List Nat) (h : ∀ d ∈ l, d < 58) :
    b58Vals (l.map b58DigitChar) = some l := by
  induction l with
  | nil => rfl
  | cons d t ih =>
    have hd : d < 58 := h d (by simp)
    have ht : ∀ x ∈ t, x < 58 := fun x hx => h x (by simp [hx])
    simp [b58Vals, b58CharVal_digitChar d hd, ih ht]

theorem takeWhile_replicate_append (p : Nat → Bool) (a z : Nat) (l : List Nat)
    (hp : p a = true) :
    (List.replicate z a ++ l).takeWhile p = List.replicate z a ++ l.takeWhile p := by
  induction z with
  | zero => simp
  | succ n ih => simp [List.replicate_succ, List.takeWhile_cons, hp, ih]

theorem head?_dropWhile_false (p : Nat → Bool) :
    ∀ (l : List Nat) (x : Nat), (l.dropWhile p).head? = some x → p x = false := by
  intro l
  induction l with
  | nil => intro x hx; simp [List.dropWhile] at hx
  | cons a t ih =>
    intro x hx
    cases hpa : p a with
    | true =>
      rw [List.dropWhile_cons] at hx
      simp [hpa] at hx
      exact ih x hx
    | false =>
      rw [List.dropWhile_cons] at hx
      simp [hpa] at hx
      rw [← hx]
      exact hpa

theorem b58_roundtrip_core (z : Nat) (rest : List Nat)
    (hhead : ∀ h t, rest = h :: t → h ≠ 0)
    (hb : ∀ x ∈ rest, x < 256) :
    b58decode (List.replicate z 49 ++ (Nat.digits 58 (beNat rest)).reverse.map b58DigitChar)
      = some (List.replicate z 0 ++ rest) := by
  cases hr : rest with
  | nil =>
    subst hr
    have hvals := b58Vals_replicate_one z
    have htk : (List.replicate z 49).takeWhile (fun c => c == 49)
        = List.replicate z 49 := by
      have h1 := takeWhile_replicate_append (fun c => c == 49) 49 z [] (by simp)
      simp only [List.append_nil, List.takeWhile_nil] at h1
      exact h1
    have hlo : b58LeadingOnes (List.replicate z 49) = z := by
      simp [b58LeadingOnes, htk]
    simp [beNat, Nat.digits_zero, b58decode, hvals, hlo, b58Nat,
      foldlMulAdd_replicate_zero]
  | cons h t =>
    rw [← hr]
    have hh0 : h ≠ 0 := hhead h t hr
    have hofd : Nat.ofDigits 256 rest.reverse = beNat rest := by
      have h1 := foldlMulAdd_reverse 256 rest.reverse
      simpa [beNat, List.reverse_reverse] using h1.symm
    have hrev_ne : rest.reverse ≠ [] := by simp [hr]
    have hlast : ∀ (hne : rest.reverse ≠ []), rest.reverse.getLast hne ≠ 0 := by
      intro hne
      have h1 : rest.reverse.getLast? = some h := by
        rw [List.getLast?_reverse]
        simp [hr]
      have h2 : rest.reverse.getLast? = some (rest.reverse.getLast hne) :=
        List.getLast?_eq_getLast _ hne
      intro h0
      rw [h1, h0] at h2
      exact hh0 (Option.some.inj h2)
    have hd256 : ∀ x ∈ rest.reverse, x < 256 := fun x hx => hb x (by simpa using hx)
    have hdig256 : Nat.digits 256 (beNat rest) = rest.reverse := by
      rw [← hofd]
      exact Nat.digits_ofDigits 256 (by norm_num) rest.reverse hd256 hlast
    have hn0 : beNat rest ≠ 0 := by
      rw [hr]
      exact beNat_cons_pos h t hh0
    have hD58 : ∀ d ∈ Nat.digits 58 (beNat rest), d < 58 :=
      fun d hd => Nat.digits_lt_base (by norm_num) hd
    have hDne : Nat.digits 58 (beNat rest) ≠ [] :=
      Nat.digits_ne_nil_iff_ne_zero.mpr hn0
    have hDrevne : (Nat.digits 58 (beNat rest)).reverse ≠ [] := by simpa using hDne
    obtain ⟨d0, ds, hDrev⟩ : ∃ d0 ds, (Nat.digits 58 (beNat rest)).reverse = d0 :: ds := by
      cases hD : (Nat.digits 58 (beNat rest)).reverse with
      | nil => exact absurd hD hDrevne
      | cons x xs => exact ⟨x, xs, rfl⟩
    have hd0_mem : d0 ∈ Nat.digits 58 (beNat rest) := by
      have hm : d0 ∈ (Nat.digits 58 (beNat rest)).reverse := by rw [hDrev]; simp
      simpa using hm
    have hd0_58 : d0 < 58 := hD58 d0 hd0_mem
    have hd0_ne : d0 ≠ 0 := by
      have h1 : (Nat.digits 58 (beNat rest)).reverse.head? = some d0 := by
        rw [hDrev]; rfl
      rw [List.head?_reverse] at h1
      have h2 := List.getLast?_eq_getLast (Nat.digits 58 (beNat rest)) hDne
      have h3 : d0 = (Nat.digits 58 (beNat rest)).getLast hDne := by
        rw [h2] at h1
        exact (Option.some.inj h1).symm
      rw [h3]
      exact Nat.getLast_digit_ne_zero 58 hn0
    have hvals : b58Vals (List.replicate z 49 ++
          (Nat.digits 58 (beNat rest)).reverse.map b58DigitChar)
        = some (List.replicate z 0 ++ (Nat.digits 58 (beNat rest)).reverse) :=
      b58Vals_append (b58Vals_replicate_one z)
        (b58Vals_map_digitChar (Nat.digits 58 (beNat rest)).reverse
          (fun d hd => hD58 d (by simpa using hd)))
    have htk2 : ((Nat.digits 58 (beNat rest)).reverse.map b58DigitChar).takeWhile
        (fun c => c == 49) = [] := by
      have hne49 := b58DigitChar_ne_one d0 hd0_58 hd0_ne
      rw [hDrev]
      simp [List.takeWhile_cons, hne49]
    have hlo : b58LeadingOnes (List.replicate z 49 ++
        (Nat.digits 58 (beNat rest)).reverse.map b58DigitChar) = z := by
      have h1 := takeWhile_replicate_append (fun c => c == 49) 49 z
        ((Nat.digits 58 (beNat rest)).reverse.map b58DigitChar) (by simp)
      rw [b58LeadingOnes, h1, htk2]
      simp
    have hnum : b58Nat (List.replicate z 0 ++ (Nat.digits 58 (beNat rest)).reverse)
        = beNat rest := by
      have h1 : b58Nat (List.replicate z 0 ++ (Nat.digits 58 (beNat rest)).reverse)
          = b58Nat (Nat.digits 58 (beNat rest)).reverse := by
        simpa [b58Nat] using
          foldlMulAdd_replicate_zero_append 58 z (Nat.digits 58 (beNat rest)).reverse
      have h2 : b58Nat (Nat.digits 58 (beNat rest)).reverse
          = Nat.ofDigits 58 (Nat.digits 58 (beNat rest)) := by
        simpa [b58Nat] using foldlMulAdd_reverse 58 (Nat.digits 58 (beNat rest))
      rw [h1, h2]
      exact Nat.ofDigits_digits 58 (beNat rest)
    have hfin : b58decode (List.replicate z 49 ++
          (Nat.digits 58 (beNat rest)).reverse.map b58DigitChar)
        = some (List.replicate (b58LeadingOnes (List.replicate z 49 ++
            (Nat.digits 58 (beNat rest)).reverse.map b58DigitChar)) 0 ++
          (Nat.digits 256 (b58Nat (List.replicate z 0 ++
            (Nat.digits 58 (beNat rest)).reverse))).reverse) := by
      rw [b58decode, hvals]
    rw [hfin, hlo, hnum, hdig256, List.reverse_reverse]

theorem b58decode_b58encode (bs : List Nat) (hb : ∀ x ∈ bs, x < 256) :
    b58decode (b58encode bs) = some bs := by
  have htd : bs.takeWhile (fun b => b == 0) ++ bs.dropWhile (fun b => b == 0) = bs := by
    simp
  have htw : bs.takeWhile (fun b => b == 0)
      = List.replicate (bs.takeWhile (fun b => b == 0)).length 0 := by
    apply List.eq_replicate_of_mem
    intro b hbm
    have h1 := List.mem_takeWhile_imp hbm
    simpa using h1
  have hh : ∀ h t, bs.dropWhile (fun b => b == 0) = h :: t → h ≠ 0 := by
    intro h t hht h0
    have h1 : (bs.dropWhile (fun b => b == 0)).head? = some h := by rw [hht]; rfl
    have h2 := head?_dropWhile_false (fun b => b == 0) bs h h1
    rw [h0] at h2
    simp at h2
  have hbrest : ∀ x ∈ bs.dropWhile (fun b => b == 0), x < 256 := by
    intro x hx
    apply hb
    rw [← htd]
    exact List.mem_append_right _ hx
  have hcore := b58_roundtrip_core (bs.takeWhile (fun b => b == 0)).length
    (bs.dropWhile (fun b => b == 0)) hh hbrest
  have hbe : beNat bs = beNat (bs.dropWhile (fun b => b == 0)) := by
    conv_lhs => rw [← htd, htw]
    simpa [beNat] using foldlMulAdd_replicate_zero_append 256
      (bs.takeWhile (fun b => b == 0)).length (bs.dropWhile (fun b => b == 0))
  have henc : b58encode bs
      = List.replicate (bs.takeWhile (fun b => b == 0)).length 49 ++
        (Nat.digits 58 (beNat (bs.dropWhile (fun b => b == 0)))).reverse.map b58DigitChar := by
    rw [b58encode, hbe]
    rfl
  rw [henc, hcore, ← htw, htd]

theorem b58encode_head (e : List Nat) (hne : e ≠ []) :
    ∃ c cs, b58encode e = c :: cs ∧ c ∈ B58_ALPHABET := by
  cases htw : e.takeWhile (fun b => b == 0) with
  | cons a l =>
    refine ⟨49, List.replicate l.length 49 ++
      (Nat.digits 58 (beNat e)).reverse.map b58DigitChar, ?_, by decide⟩
    rw [b58encode]
    simp [b58LeadingZeros, htw, List.replicate_succ]
  | nil =>
    have hdw : e.dropWhile (fun b => b == 0) = e := by
      have htd : e.takeWhile (fun b => b == 0) ++ e.dropWhile (fun b => b == 0) = e := by
        simp
      rw [htw] at htd
      simpa using htd
    cases he : e with
    | nil => exact absurd he hne
    | cons h t =>
      rw [← he]
      have hh0 : h ≠ 0 := by
        intro h0
        have h1 : (e.dropWhile (fun b => b == 0)).head? = some h := by
          rw [hdw, he]; rfl
        have h2 := head?_dropWhile_false (fun b => b == 0) e h h1
        rw [h0] at h2
        simp at h2
      have hpos : beNat e ≠ 0 := by
        rw [he]
        exact beNat_cons_pos h t hh0
      have hDne : Nat.digits 58 (beNat e) ≠ [] :=
        Nat.digits_ne_nil_iff_ne_zero.mpr hpos
      have hrevne : (Nat.digits 58 (beNat e)).reverse ≠ [] := by simpa using hDne
      cases hD : (Nat.digits 58 (beNat e)).reverse with
      | nil => exact absurd hD hrevne
      | cons d0 ds =>
        have hd0 : d0 < 58 := by
          have hm : d0 ∈ Nat.digits 58 (beNat e) := by
            have hm2 : d0 ∈ (Nat.digits 58 (beNat e)).reverse := by rw [hD]; simp
            simpa using hm2
          exact Nat.digits_lt_base (by norm_num) hm
        refine ⟨b58DigitChar d0, ds.map b58DigitChar, ?_, b58DigitChar_mem d0 hd0⟩
        rw [b58encode]
        have hz : b58LeadingZeros e = 0 := by simp [b58LeadingZeros, htw]
        rw [hz, hD]
        simp

/-! ### next_invocation blocking (C3) -/

/-- C3: a next_invocation call that observes the RerunGuard set clears the
guard, logs the restart warning and sleeps 31563000 seconds, all before the
first payload-sourcing step; no step of the blocking prefix sources or
delivers a payload, so the call delivers nothing before the suspension
elapses. -/
theorem next_invocation_block_C3 (src : PayloadSources) (p : String) :
    nextInvocationTrace true src p
        = [EmuStep.readGuard true, EmuStep.clearGuard, EmuStep.warnRestart,
            EmuStep.sleepSecs 31563000] ++ sourcingTrace src p
      ∧ (blockIfRerunTrace true).all (fun s => !isPayloadStep s) = true
      ∧ EmuStep.clearGuard ∈ blockIfRerunTrace true
      ∧ EmuStep.warnRestart ∈ blockIfRerunTrace true
      ∧ EmuStep.sleepSecs 31563000 ∈ blockIfRerunTrace true
      ∧ (blockIfRerunObserve true).2 = false := by
  exact ⟨rfl, by decide, by decide, by decide, by decide, rfl⟩

/-! ### send_output actions (C4) -/

/-- C4: every send_output call issues exactly one DeleteMessage with the
supplied receipt handle against the request queue, whether or not the
response was sent; and when the encoded response is under 262144 bytes the
action list is exactly one SendMessage to the response queue followed by
that DeleteMessage. -/
theorem send_output_delete_once_C4 (q : EmuQueues) (gzip : List Nat → List Nat)
    (response : List Nat) (receiptHandle : String) :
    (sendOutputActions q gzip response receiptHandle).count
        (SqsAction.deleteMessage q.requestQueueUrl receiptHandle) = 1
      ∧ ((compressOutput gzip response).length < 262144 →
          sendOutputActions q gzip response receiptHandle
            = [SqsAction.sendMessage q.responseQueueUrl (compressOutput gzip response),
                SqsAction.deleteMessage q.requestQueueUrl receiptHandle]) := by
  constructor
  · by_cases h : (compressOutput gzip response).length < 262144 <;>
      simp [sendOutputActions, h]
  · intro h
    simp [sendOutputActions, h]

/-! ### The happy-path response body (C5) -/

/-- C5 (code evaluated at the failing input): the emulator's encoder forwards
the six-byte JSON string body pong (with its quotes) unchanged, but the
proxy's decode step rejects it: the body does not start with a left brace, so
Base58 decoding is attempted and fails on the quote character; my_handler
therefore returns an invocation error instead of returning pong. -/
theorem pong_decode_fails_C5 (gzip : List Nat → List Nat)
    (gunzip : List Nat → Option (List Nat)) :
    compressOutput gzip pongBody = pongBody
      ∧ decodeMaybeBinary gunzip pongBody
        = Except.error "Failed to decode from maybe base58" := by
  exact ⟨rfl, rfl⟩

/-! ### Response-queue env var (C6) -/

/-- C6 (code evaluated at the failing input): with
PROXY_LAMBDA_RESP_QUEUE_URL set as documented and nothing else, the
emulator's queue resolution leaves the response queue unset (falling back to
default discovery, here empty) instead of using the variable's value, because
the code reads LAMBDA_PROXY_RESP_QUEUE_URL. -/
theorem resp_env_var_ignored_C6 :
    getQueues envC6 none none
        = some ⟨"https://sqs.us-east-1.amazonaws.com/123456789012/custom_req", none⟩
      ∧ envC6 "PROXY_LAMBDA_RESP_QUEUE_URL"
        = some "https://sqs.us-east-1.amazonaws.com/123456789012/custom_resp" := by
  exact ⟨rfl, rfl⟩

/-! ### Purge failure modes (C7) -/

/-- C7: when no response-queue env var is set and purging the ARN-derived
default queue fails, the proxy returns JSON null immediately without entering
the receive loop; when the queue was configured explicitly and purging it
fails, the failure surfaces as an invocation error. -/
theorem purge_failure_modes_C7 (arnStr url e₁ e₂ : String)
    (purge : String → Except String Unit)
    (h7 : (rustSplitColon arnStr).length = 7)
    (hd : purge (defaultRespQueueUrl (rustSplitColon arnStr)) = Except.error e₁)
    (he : purge url = Except.error e₂) :
    respQueuePhase none arnStr purge = RespPhaseOutcome.fireAndForgetNull
      ∧ respQueuePhase (some url) arnStr purge
        = RespPhaseOutcome.invocationError e₂ := by
  constructor
  · simp [respQueuePhase, h7, hd]
  · simp [respQueuePhase, he]

/-- C7 witness at a concrete seven-part ARN, a concrete custom queue URL and
an always-failing purge. -/
theorem purge_failure_modes_C7_witness :
    respQueuePhase none arnSeven purgeDenied = RespPhaseOutcome.fireAndForgetNull
      ∧ respQueuePhase (some "https://sqs.example.com/custom") arnSeven purgeDenied
        = RespPhaseOutcome.invocationError "AccessDenied" :=
  purge_failure_modes_C7 arnSeven "https://sqs.example.com/custom" "AccessDenied"
    "AccessDenied" purgeDenied (by decide) rfl rfl

/-! ### Decode failure keeps the message (C8) -/

/-- C8: when decoding a response-queue message body fails, the proxy returns
the decode error and issues no SQS action at all, so no DeleteMessage is sent
and the message remains on the response queue. -/
theorem decode_failure_no_delete_C8 (gunzip : List Nat → Option (List Nat))
    (url : String) (body : List Nat) (receiptHandle : String) (e : String)
    (h : decodeMaybeBinary gunzip body = Except.error e) :
    (processResponseMessage gunzip url body receiptHandle).1 = Except.error e
      ∧ (processResponseMessage gunzip url body receiptHandle).2 = [] := by
  constructor <;> simp [processResponseMessage, h]

/-! ### Codec roundtrip (C2) -/

theorem utf8Valid_cons_a (l : List Nat) : utf8Valid (97 :: l) = utf8Valid l := by
  simp [utf8Valid, utf8ValidAux, utf8Step]

theorem utf8Valid_replicate_a (n : Nat) : utf8Valid (List.replicate n 97) = true := by
  induction n with
  | zero => rfl
  | succ k ih => simpa [List.replicate_succ, utf8Valid_cons_a] using ih

theorem gunzipStub_gzipStub (l : List Nat) : gunzipStub (gzipStub l) = some l := rfl

/-- C2: decoding inverts encoding on every UTF-8 body of at least 262144
bytes, given the gzip library contract at that body (flate2 round-trips, its
output is nonempty and consists of bytes); and decode returns unchanged any
body whose first non-whitespace byte is a left brace. -/
theorem codec_roundtrip_C2 (gzip : List Nat → List Nat)
    (gunzip : List Nat → Option (List Nat)) (s t : List Nat)
    (hrt : gunzip (gzip s) = some s)
    (hnz : gzip s ≠ [])
    (hbytes : ∀ b ∈ gzip s, b < 256)
    (hutf : utf8Valid s = true)
    (hlen : 262144 ≤ s.length)
    (hjson : (trimStart t).head? = some 123) :
    decodeMaybeBinary gunzip (compressOutput gzip s) = Except.ok s
      ∧ decodeMaybeBinary gunzip t = Except.ok t := by
  constructor
  · have hco : compressOutput gzip s = b58encode (gzip s) := by
      rw [compressOutput]
      simp [Nat.not_lt.mpr hlen]
    obtain ⟨c, cs, henc, hmem⟩ := b58encode_head (gzip s) hnz
    obtain ⟨hws, hbr⟩ := alphabet_plain c hmem
    have htrim : trimStart (c :: cs) = c :: cs := by
      simp [trimStart, List.dropWhile_cons, hws]
    have hdec : b58decode (c :: cs) = some (gzip s) := by
      rw [← henc]
      exact b58decode_b58encode (gzip s) hbytes
    rw [hco, henc]
    simp [decodeMaybeBinary, htrim, hbr, hdec, hrt, hutf]
  · simp [decodeMaybeBinary, hjson]

/-- C2 witness: the 262144-byte ASCII body with the stub gzip pair round
trips, and the one-byte brace body passes through. -/
theorem codec_roundtrip_C2_witness :
    decodeMaybeBinary gunzipStub (compressOutput gzipStub bigPayload)
        = Except.ok bigPayload
      ∧ decodeMaybeBinary gunzipStub [123] = Except.ok [123] :=
  codec_roundtrip_C2 gzipStub gunzipStub bigPayload [123]
    (gunzipStub_gzipStub bigPayload)
    (by simp [gzipStub])
    (by
      intro b hb
      simp only [gzipStub, List.mem_cons] at hb
      rcases hb with h | h | h | h
      · omega
      · omega
      · omega
      · have h2 : b = 97 := by
          rw [bigPayload] at h
          exact List.eq_of_mem_replicate h
        omega)
    (utf8Valid_replicate_a 262144)
    (by rw [bigPayload, List.length_replicate])
    rfl

/-! ### Environment listing (C9) -/

/-- C9: the proxy's startup environment listing consists of the marker entry
and exactly one KEY=VALUE entry per non-sensitive environment pair; the three
AWS credential variables contribute nothing, every other pair present is
listed. -/
theorem print_env_vars_filter_C9 (env : List (String × String)) (s : String) :
    s ∈ printEnvVarsList env ↔
      (s = " export" ∨
        ∃ k v, (k, v) ∈ env ∧ isSensitiveKey k = false ∧ s = k ++ "=" ++ v) := by
  rw [printEnvVarsList]
  rw [List.Perm.mem_iff (List.mergeSort_perm _ _)]
  simp only [List.mem_cons, List.mem_filterMap]
  constructor
  · rintro (h | ⟨⟨k, v⟩, hmem, hf⟩)
    · exact Or.inl h
    · by_cases hk : isSensitiveKey k
      · simp [hk] at hf
      · simp only [hk, if_neg, Bool.not_eq_true] at hf
        refine Or.inr ⟨k, v, hmem, by simpa using hk, ?_⟩
        simpa using hf.symm
  · rintro (h | ⟨k, v, hmem, hks, rfl⟩)
    · exact Or.inl h
    · exact Or.inr ⟨⟨k, v⟩, hmem, by simp [hks]⟩

/-! ### Serde defaults for Ctx (C10) -/

theorem parseStrField_ok (fields : List (String × Json)) (name dflt : String)
    (h : List.lookup name fields = none ∨
      ∃ s, List.lookup name fields = some (Json.str s)) :
    ∃ s, parseStrField fields name dflt = some s
      ∧ (List.lookup name fields = none → s = dflt) := by
  rcases h with h | ⟨s, hs⟩
  · exact ⟨dflt, by simp [parseStrField, h], fun _ => rfl⟩
  · refine ⟨s, by simp [parseStrField, hs], ?_⟩
    intro hn
    rw [hn] at hs
    cases hs

theorem parseIntField_ok (fields : List (String × Json)) (name : String) (dflt : Int)
    (h : List.lookup name fields = none ∨
      ∃ n, List.lookup name fields = some (Json.num n)) :
    ∃ n, parseIntField fields name dflt = some n
      ∧ (List.lookup name fields = none → n = dflt) := by
  rcases h with h | ⟨n, hn⟩
  · exact ⟨dflt, by simp [parseIntField, h], fun _ => rfl⟩
  · refine ⟨n, by simp [parseIntField, hn], ?_⟩
    intro hx
    rw [hx] at hn
    cases hn

/-- C10: a request message whose ctx object omits any of the four context
fields still deserialises; each missing field is filled from the serde
container default (the fresh UUID, deadline 2524608000, ARN my-lambda, the
all-zero trace id) instead of the message being rejected. -/
theorem ctx_defaults_C10 (event : Json) (fields : List (String × Json)) (u : String)
    (h1 : List.lookup "request_id" fields = none ∨
      ∃ s, List.lookup "request_id" fields = some (Json.str s))
    (h2 : List.lookup "deadline" fields = none ∨
      ∃ n, List.lookup "deadline" fields = some (Json.num n))
    (h3 : List.lookup "invoked_function_arn" fields = none ∨
      ∃ s, List.lookup "invoked_function_arn" fields = some (Json.str s))
    (h4 : List.lookup "xray_trace_id" fields = none ∨
      ∃ s, List.lookup "xray_trace_id" fields = some (Json.str s)) :
    ∃ c, parseRequestPayload (Json.obj [("event", event), ("ctx", Json.obj fields)]) u
        = some ⟨event, c⟩
      ∧ (List.lookup "request_id" fields = none → c.request_id = u)
      ∧ (List.lookup "deadline" fields = none → c.deadline = 2524608000)
      ∧ (List.lookup "invoked_function_arn" fields = none →
          c.invoked_function_arn = "my-lambda")
      ∧ (List.lookup "xray_trace_id" fields = none → c.xray_trace_id = zeroXray) := by
  obtain ⟨a, ha, ha0⟩ :=
    parseStrField_ok fields "request_id" (ctxDefault u).request_id h1
  obtain ⟨b, hbf, hb0⟩ :=
    parseIntField_ok fields "deadline" (ctxDefault u).deadline h2
  obtain ⟨c3, hc, hc0⟩ :=
    parseStrField_ok fields "invoked_function_arn" (ctxDefault u).invoked_function_arn h3
  obtain ⟨x, hx, hx0⟩ :=
    parseStrField_ok fields "xray_trace_id" (ctxDefault u).xray_trace_id h4
  refine ⟨⟨a, b, c3, x⟩, ?_, ?_, ?_, ?_, ?_⟩
  · have hev : List.lookup "event" [("event", event), ("ctx", Json.obj fields)]
        = some event := rfl
    have hctx : List.lookup "ctx" [("event", event), ("ctx", Json.obj fields)]
        = some (Json.obj fields) := rfl
    have hpc : parseCtx fields u = some ⟨a, b, c3, x⟩ := by
      rw [parseCtx.eq_def, ha, hbf, hc, hx]
    rw [parseRequestPayload]
    rw [hev, hctx]
    simp [hpc]
  · intro h
    exact ha0 h
  · intro h
    exact hb0 h
  · intro h
    exact hc0 h
  · intro h
    exact hx0 h

/-- C10 witness: an empty ctx object parses, with all four fields defaulted. -/
theorem ctx_defaults_C10_witness :
    ∃ c, parseRequestPayload (Json.obj [("event", Json.null), ("ctx", Json.obj [])]) "u1"
        = some ⟨Json.null, c⟩
      ∧ (List.lookup "request_id" ([] : List (String × Json)) = none →
          c.request_id = "u1")
      ∧ (List.lookup "deadline" ([] : List (String × Json)) = none →
          c.deadline = 2524608000)
      ∧ (List.lookup "invoked_function_arn" ([] : List (String × Json)) = none →
          c.invoked_function_arn = "my-lambda")
      ∧ (List.lookup "xray_trace_id" ([] : List (String × Json)) = none →
          c.xray_trace_id = zeroXray) :=
  ctx_defaults_C10 Json.null [] "u1" (Or.inl rfl) (Or.inl rfl) (Or.inl rfl) (Or.inl rfl)

/-- C8 witness: a one-byte body holding an exclamation mark is neither
brace-prefixed nor Base58, so its decode fails and nothing is deleted. -/
theorem decode_failure_no_delete_C8_witness :
    (processResponseMessage (fun _ => none) "https://sqs.example.com/resp" [33] "r1").1
        = Except.error "Failed to decode from maybe base58"
      ∧ (processResponseMessage (fun _ => none) "https://sqs.example.com/resp" [33] "r1").2
        = [] :=
  decode_failure_no_delete_C8 (fun _ => none) "https://sqs.example.com/resp" [33] "r1"
    "Failed to decode from maybe base58" rfl

end LambdaDebugger
